import Mathlib

/-!
Verification of the gohtmx in-process transport core.

This file gives a shallow embedding of the parts of the repository that the
verified properties are about:

* `Session` — per-connection state from `pkg/websocket` (source `part_003`):
  bounded send queue, metadata map, pending-request table, one-way closed
  latch, handler callbacks.
* `Hub` — session registry and URL-pattern routing from `pkg/websocket`
  (source `part_004`): `Connect`, `ConnectWithID`, `Disconnect`,
  `HandleMessage`, `Send`, `findHandler`, `extractPath`.
* `InProcessChannel` — the transport wrapper over a `Session`
  (`pkg/transport/inprocess_channel.go`): `Send` error mapping, `Close`,
  buffer-size defaulting.
* `SecretValidationMiddleware` (`pkg/router/security.go`).
* `GenerateSecret` (`desktop/security.go`) with a model of Go's
  `base64.URLEncoding` (padded, URL-safe alphabet).

Concurrency is modelled by interleaving whole operations: each Go method
runs its lock-protected sections atomically, so a sequential step function
over an operation list covers every ordering of complete calls.  Handler
callbacks (`OnConnect` / `OnMessage` / `OnClose`) are modelled as pure
behaviours indexed by a handler id; the invocations themselves are recorded
in an event trace so that "invoked exactly once" style properties can be
stated.  Wall-clock time (session-id timestamps, pending TTLs) is passed in
as data where it matters and otherwise dropped.
-/

/-- Outbound envelope.  Its fields are never inspected by the hub or session
logic modelled here, so it is carried opaquely. -/
structure Envelope where
  tag : Nat
deriving DecidableEq, Repr

/-- Inbound WebSocket request.  Only `RequestID` is consulted by the code
under verification (pending-request tracking). -/
structure Request where
  requestID : String
deriving DecidableEq, Repr

/-- Error values of the `websocket` package (source `part_004` lines 11-20),
plus the parse and handler failures that `Session.HandleMessage` can
propagate. -/
inductive WsError where
  | sessionNotFound
  | sessionClosed
  | noHandler
  | parseError
  | handlerError
deriving DecidableEq, Repr

/-- Error values of the `transport` package (source `part_001` lines 13-25). -/
inductive TransportError where
  | transportClosed
  | channelClosed
  | channelFull
  | noHandler
deriving DecidableEq, Repr

/-- Raw bytes arriving on a session, abstracted to whether they parse into a
`Request`. -/
inductive WireData where
  | malformed
  | frame (req : Request)
deriving DecidableEq, Repr

/-- Modelled from the spec: `ParseRequest` (its source file is not in the
corpus; the spec says `HandleMessage` "parses to a WS-Request" and reports a
parse-error otherwise).  Malformed input yields an error, well-formed input
yields the carried request. -/
def ParseRequest : WireData → Except WsError Request
  | WireData.malformed => Except.error WsError.parseError
  | WireData.frame req => Except.ok req

/-- Metadata values (`map[string]any` in Go, restricted to the dynamic types
the accessors under verification test for, plus one representative other
type). -/
inductive MetaValue where
  | str (s : String)
  | int (n : Int)
  | boolean (b : Bool)
deriving DecidableEq, Repr

/-- Go `strings.HasPrefix` on the underlying characters. -/
def strStarts (p s : String) : Bool :=
  p.toList.isPrefixOf s.toList

/-- Go `strings.HasSuffix` on the underlying characters. -/
def strEnds (sfx s : String) : Bool :=
  sfx.toList.isSuffixOf s.toList

/-- Go map assignment `m[k] = v` on an association-list model (unique keys). -/
def alSet (k : String) (v : α) (m : List (String × α)) : List (String × α) :=
  (k, v) :: m.filter (fun p => decide (p.1 ≠ k))

/-- Go map deletion `delete(m, k)` on the association-list model. -/
def alErase (k : String) (m : List (String × α)) : List (String × α) :=
  m.filter (fun p => decide (p.1 ≠ k))

/-- Behaviour of a registered `MessageHandler`, indexed by a handler id.
`connectError` is whether its `OnConnect` returns an error; `onMessage` is
the result its `OnMessage` returns for a given request. -/
structure HandlerBeh where
  connectError : Bool
  onMessage : Request → Except Unit (Option Envelope)

/-- Observable callback and channel-lifecycle events, used to state
"invoked exactly once" properties. -/
inductive Event where
  | onConnect (hid : Nat) (sid : String)
  | onClose (hid : Nat) (sid : String)
  | sendChanClosed (sid : String)
  | sessionCreatedObs (sid : String)
  | sessionDestroyedObs (sid : String)
deriving DecidableEq, Repr

/-- State of a `websocket.Session` (source `part_003` lines 10-33).
`queue`/`queueCap`/`queueClosed` model the buffered `SendChan`; `handler` is
the id of the attached `MessageHandler` (`none` models a nil handler);
`pending` drops the timestamp since no verified property depends on it. -/
structure Session where
  id : String
  url : String
  handler : Option Nat
  queue : List Envelope
  queueCap : Nat
  queueClosed : Bool
  closed : Bool
  metadata : List (String × MetaValue)
  pending : List (String × Request)
deriving DecidableEq, Repr

/-- Constructor `NewSession` (source `part_003` lines 71-81): buffer capacity
100, open, empty maps. -/
def NewSession (id url : String) (handler : Option Nat) : Session :=
  { id := id, url := url, handler := handler, queue := [], queueCap := 100,
    queueClosed := false, closed := false, metadata := [], pending := [] }

/-- Method `Session.Send` (source `part_003` lines 84-99): returns `false`
when closed; otherwise a non-blocking enqueue that fails when the buffer is
full. -/
def Session.send (s : Session) (e : Envelope) : Session × Bool :=
  if s.closed then (s, false)
  else if s.queue.length < s.queueCap then
    ({ s with queue := s.queue ++ [e] }, true)
  else (s, false)

/-- Method `Session.Close` (source `part_003` lines 131-145): no-op when
already closed; otherwise flips the latch, closes `SendChan`, then invokes
`Handler.OnClose` when a handler is attached. -/
def Session.close (s : Session) : Session × List Event :=
  if s.closed then (s, [])
  else
    ({ s with closed := true, queueClosed := true },
     Event.sendChanClosed s.id ::
       (match s.handler with
        | some h => [Event.onClose h s.id]
        | none => []))

/-- Method `Session.IsClosed` (source `part_003` lines 148-152). -/
def Session.isClosed (s : Session) : Bool :=
  s.closed

/-- Internal `Session.trackPending` (source `part_003` lines 196-203). -/
def Session.trackPending (s : Session) (req : Request) : Session :=
  { s with pending := alSet req.requestID req s.pending }

/-- Method `Session.HandleMessage` (source `part_003` lines 113-128): parse,
record a pending entry when `RequestID` is non-empty, then delegate to the
handler's `OnMessage` (or return `(nil, nil)` when the handler is nil).
Note that the method never consults the `closed` latch. -/
def Session.handleMessage (env : Nat → HandlerBeh) (s : Session)
    (data : WireData) : Session × Except WsError (Option Envelope) :=
  match ParseRequest data with
  | Except.error e => (s, Except.error e)
  | Except.ok req =>
    let s1 := if req.requestID ≠ "" then s.trackPending req else s
    match s1.handler with
    | some h =>
      match (env h).onMessage req with
      | Except.error _ => (s1, Except.error WsError.handlerError)
      | Except.ok oe => (s1, Except.ok oe)
    | none => (s1, Except.ok none)

/-- Method `Session.Set` (source `part_003` lines 155-159). -/
def Session.set (s : Session) (key : String) (v : MetaValue) : Session :=
  { s with metadata := alSet key v s.metadata }

/-- Method `Session.Get` (source `part_003` lines 162-167): read-only. -/
def Session.get (s : Session) (key : String) : Option MetaValue × Session :=
  (s.metadata.lookup key, s)

/-- Method `Session.GetString` (source `part_003` lines 170-177): the value
when present with dynamic type `string`, otherwise the empty string; the
session is returned unchanged because the method only reads. -/
def Session.getString (s : Session) (key : String) : String × Session :=
  (match s.metadata.lookup key with
   | some (MetaValue.str v) => v
   | _ => "", s)

/-- Method `Session.GetInt` (source `part_003` lines 180-187): the value when
present with dynamic type `int`, otherwise `0`; read-only. -/
def Session.getInt (s : Session) (key : String) : Int × Session :=
  (match s.metadata.lookup key with
   | some (MetaValue.int v) => v
   | _ => 0, s)

/-- Operations a client can perform directly on one session. -/
inductive SessionOp where
  | close
  | send (e : Envelope)
  | handleMessage (d : WireData)
  | set (k : String) (v : MetaValue)
deriving Repr

/-- One session operation, returning the new state and the emitted events. -/
def sessionStep (env : Nat → HandlerBeh) (s : Session) :
    SessionOp → Session × List Event
  | SessionOp.close => s.close
  | SessionOp.send e => ((s.send e).1, [])
  | SessionOp.handleMessage d => ((s.handleMessage env d).1, [])
  | SessionOp.set k v => (s.set k v, [])

/-- Run a list of session operations, accumulating emitted events. -/
def sessionRun (env : Nat → HandlerBeh) (s : Session) :
    List SessionOp → Session × List Event
  | [] => (s, [])
  | op :: ops =>
    let r1 := sessionStep env s op
    let r2 := sessionRun env r1.1 ops
    (r2.1, r1.2 ++ r2.2)

/-- Number of `OnClose` invocations recorded in a trace. -/
def countOnClose (evs : List Event) : Nat :=
  (evs.filter (fun e => match e with
    | Event.onClose _ _ => true
    | _ => false)).length

/-- Number of send-queue closures recorded in a trace. -/
def countChanClosed (evs : List Event) : Nat :=
  (evs.filter (fun e => match e with
    | Event.sendChanClosed _ => true
    | _ => false)).length

/-- Decimal formatter `itoa` (source `part_004` lines 360-373).  The Go loop
writes into a 20-byte buffer (enough for any `uint64`); the fuel mirrors
that buffer. -/
def itoaLoop : Nat → Nat → List Char → List Char
  | 0, _, acc => acc
  | fuel + 1, n, acc =>
    if n = 0 then acc
    else itoaLoop fuel (n / 10) (Char.ofNat (48 + n % 10) :: acc)

/-- Decimal rendering of a counter value, as `itoa` in the source. -/
def itoa (n : Nat) : String :=
  if n = 0 then "0" else String.mk (itoaLoop 20 n [])

/-- Index of the first occurrence of `pat` in `s` (Go `strings.Index`). -/
def idxOfSub (pat : List Char) : List Char → Option Nat
  | [] => if pat.isPrefixOf ([] : List Char) then some 0 else none
  | c :: rest =>
    if pat.isPrefixOf (c :: rest) then some 0
    else (idxOfSub pat rest).map (· + 1)

/-- Function `extractPath` (source `part_004` lines 348-358): strip a
`scheme://` prefix, then return from the first `/` on; `/` when no slash
remains. -/
def extractPath (url : String) : String :=
  let cs := url.toList
  let cs1 :=
    match idxOfSub ("://".toList) cs with
    | some i => cs.drop (i + 3)
    | none => cs
  match idxOfSub ['/'] cs1 with
  | some i => String.mk (cs1.drop i)
  | none => "/"

/-- One pass of the prefix scan in `findHandler` (source `part_004` lines
305-309 and 317-321): the first registered pattern that ends in `/` and is a
prefix of `url`.  Go iterates its map in unspecified order; the registration
list order stands in for one such order. -/
def patternScan (handlers : List (String × Nat)) (url : String) : Option Nat :=
  (handlers.find? (fun p => strEnds "/" p.1 && strStarts p.1 url)).map (·.2)

/-- Function `Hub.findHandler` (source `part_004` lines 295-324): exact
match, then prefix patterns, then the same two passes on `extractPath url`. -/
def findHandler (handlers : List (String × Nat)) (url : String) : Option Nat :=
  match handlers.lookup url with
  | some h => some h
  | none =>
    match patternScan handlers url with
    | some h => some h
    | none =>
      let path := extractPath url
      match handlers.lookup path with
      | some h => some h
      | none => patternScan handlers path

/-- The second (path-extraction) pass of `findHandler` in isolation: exact
match then prefix match on the stripped path. -/
def findHandlerPathPass (handlers : List (String × Nat)) (url : String) :
    Option Nat :=
  match handlers.lookup (extractPath url) with
  | some h => some h
  | none => patternScan handlers (extractPath url)

/-- State of a `websocket.Hub` (source `part_004` lines 23-34).  The
observer callbacks are modelled by presence flags; their invocations appear
in the event trace. -/
structure Hub where
  sessions : List (String × Session)
  handlers : List (String × Nat)
  defaultHandler : Option Nat
  counter : Nat
  hasCreatedObs : Bool
  hasDestroyedObs : Bool
deriving DecidableEq, Repr

/-- Constructor `NewHub` (source `part_004` lines 37-42). -/
def Hub.new : Hub :=
  { sessions := [], handlers := [], defaultHandler := none, counter := 0,
    hasCreatedObs := false, hasDestroyedObs := false }

/-- Method `Hub.Handle` (source `part_004` lines 46-50). -/
def Hub.handle (hb : Hub) (pattern : String) (hid : Nat) : Hub :=
  { hb with handlers := alSet pattern hid hb.handlers }

/-- Method `Hub.SetDefaultHandler` (source `part_004` lines 58-62). -/
def Hub.setDefaultHandler (hb : Hub) (hid : Nat) : Hub :=
  { hb with defaultHandler := some hid }

/-- Handler resolution shared by `Connect` and `ConnectWithID` (source
`part_004` lines 77-83 and 109-115): `findHandler`, falling back to the
default handler, else `ErrNoHandler`. -/
def resolveHandler (hb : Hub) (url : String) : Except WsError Nat :=
  match findHandler hb.handlers url with
  | some h => Except.ok h
  | none =>
    match hb.defaultHandler with
    | some h => Except.ok h
    | none => Except.error WsError.noHandler

/-- Method `Hub.generateSessionID` (source `part_004` lines 343-346); the
wall-clock component is passed in as `timeStr`. -/
def generateSessionID (timeStr : String) (counter : Nat) : String :=
  "ws_" ++ timeStr ++ "_" ++ itoa counter

/-- Method `Hub.Connect` (source `part_004` lines 76-105): resolve a handler,
create and register the session, invoke `OnConnect` (rolling back the
registration on error), then notify the created-observer. -/
def Hub.connect (env : Nat → HandlerBeh) (hb : Hub) (timeStr url : String) :
    Hub × List Event × Except WsError Session :=
  match resolveHandler hb url with
  | Except.error e => (hb, [], Except.error e)
  | Except.ok h =>
    let sid := generateSessionID timeStr (hb.counter + 1)
    let session := NewSession sid url (some h)
    let hb1 := { hb with counter := hb.counter + 1,
                         sessions := alSet sid session hb.sessions }
    if (env h).connectError then
      ({ hb1 with sessions := alErase sid hb1.sessions },
       [Event.onConnect h sid], Except.error WsError.handlerError)
    else
      (hb1,
       Event.onConnect h sid ::
         (if hb.hasCreatedObs then [Event.sessionCreatedObs sid] else []),
       Except.ok session)

/-- Method `Hub.ConnectWithID` (source `part_004` lines 108-139): resolve a
handler, close any existing session under the id, register the new session,
invoke `OnConnect` (rolling back on error), then notify the
created-observer. -/
def Hub.connectWithID (env : Nat → HandlerBeh) (hb : Hub)
    (sid url : String) : Hub × List Event × Except WsError Session :=
  match resolveHandler hb url with
  | Except.error e => (hb, [], Except.error e)
  | Except.ok h =>
    let session := NewSession sid url (some h)
    let closeEvs :=
      match hb.sessions.lookup sid with
      | some old => (Session.close old).2
      | none => []
    let hb1 := { hb with sessions := alSet sid session hb.sessions }
    if (env h).connectError then
      ({ hb1 with sessions := alErase sid hb1.sessions },
       closeEvs ++ [Event.onConnect h sid], Except.error WsError.handlerError)
    else
      (hb1,
       closeEvs ++ Event.onConnect h sid ::
         (if hb.hasCreatedObs then [Event.sessionCreatedObs sid] else []),
       Except.ok session)

/-- Method `Hub.Disconnect` (source `part_004` lines 142-156): when the id is
registered, remove it, close the session, and notify the
destroyed-observer; otherwise do nothing. -/
def Hub.disconnect (hb : Hub) (sid : String) : Hub × List Event :=
  match hb.sessions.lookup sid with
  | none => (hb, [])
  | some s =>
    ({ hb with sessions := alErase sid hb.sessions },
     (Session.close s).2 ++
       (if hb.hasDestroyedObs then [Event.sessionDestroyedObs sid] else []))

/-- Method `Hub.HandleMessage` (source `part_004` lines 167-176): not-found
and closed checks, then delegation to `Session.HandleMessage`. -/
def Hub.handleMessage (env : Nat → HandlerBeh) (hb : Hub) (sid : String)
    (d : WireData) : Hub × Except WsError (Option Envelope) :=
  match hb.sessions.lookup sid with
  | none => (hb, Except.error WsError.sessionNotFound)
  | some s =>
    if s.isClosed then (hb, Except.error WsError.sessionClosed)
    else
      let r := Session.handleMessage env s d
      ({ hb with sessions := alSet sid r.1 hb.sessions }, r.2)

/-- Method `Hub.Send` (source `part_004` lines 179-188): not-found check,
then `Session.Send`; any `false` from `Session.Send` is reported as
`ErrSessionClosed`. -/
def Hub.send (hb : Hub) (sid : String) (e : Envelope) :
    Hub × Except WsError Unit :=
  match hb.sessions.lookup sid with
  | none => (hb, Except.error WsError.sessionNotFound)
  | some s =>
    let r := Session.send s e
    if r.2 then
      ({ hb with sessions := alSet sid r.1 hb.sessions }, Except.ok ())
    else (hb, Except.error WsError.sessionClosed)

/-- Method `Hub.Close` (source `part_004` lines 278-293): snapshot, reset the
registry, then close every snapshotted session and notify the
destroyed-observer for each. -/
def Hub.closeHub (hb : Hub) : Hub × List Event :=
  ({ hb with sessions := [] },
   hb.sessions.flatMap (fun p =>
     (Session.close p.2).2 ++
       (if hb.hasDestroyedObs then [Event.sessionDestroyedObs p.1] else [])))

/-- Channel-local state of an `InProcessChannel`
(`pkg/transport/inprocess_channel.go` lines 12-20): its own closed flag; the
wrapped session is passed alongside. -/
structure ChannelState where
  chClosed : Bool
deriving DecidableEq, Repr

/-- Buffer-size defaulting in `newInProcessChannel`
(`pkg/transport/inprocess_channel.go` lines 23-35): a non-positive requested
size falls back to 100.  Go `int` overflow is irrelevant at these
magnitudes, so `Int` is used directly. -/
def newInProcessChannelBufferSize (bufferSize : Int) : Int :=
  if bufferSize ≤ 0 then 100 else bufferSize

/-- Transport configuration (`part_001` lines 58-70), restricted to the
fields the verified properties read. -/
structure Config where
  secret : String
  allowedOrigins : List String
  port : Int
  address : String
  channelBufferSize : Int
deriving DecidableEq, Repr

/-- Constructor `DefaultConfig` (source `part_001` lines 72-78).  Fields not
assigned in Go carry their zero values. -/
def DefaultConfig : Config :=
  { secret := "", allowedOrigins := [], port := 0, address := "127.0.0.1",
    channelBufferSize := 100 }

/-- Buffer capacity of the channel built by `InProcessTransport.OpenChannel`
(source `part_000` line 456): `newInProcessChannel(session,
t.config.ChannelBufferSize)`. -/
def openChannelBufferSize (cfg : Config) : Int :=
  newInProcessChannelBufferSize cfg.channelBufferSize

/-- Method `InProcessChannel.Send` (`pkg/transport/inprocess_channel.go`
lines 48-61): `ErrChannelClosed` when the channel or its session is closed;
otherwise delegate to `Session.Send`, mapping `false` to `ErrChannelFull`.
The message-to-envelope translation is carried opaquely. -/
def channelSend (c : ChannelState) (s : Session) (m : Envelope) :
    Session × Except TransportError Unit :=
  if c.chClosed || s.isClosed then (s, Except.error TransportError.channelClosed)
  else
    let r := Session.send s m
    if r.2 then (r.1, Except.ok ())
    else (r.1, Except.error TransportError.channelFull)

/-- Method `InProcessChannel.Close` (`pkg/transport/inprocess_channel.go`
lines 69-80): first invocation sets the channel's closed flag and closes the
wrapped session; it never touches the hub registry. -/
def channelClose (c : ChannelState) (s : Session) :
    ChannelState × Session × List Event :=
  if c.chClosed then (c, s, [])
  else
    let r := Session.close s
    ({ chClosed := true }, r.1, r.2)

/-- Operations on a hub and the sessions it owns.  `closeSession` is
`Session.Close` reached through a live reference — for example
`InProcessChannel.Close` (`pkg/transport/inprocess_channel.go` line 75) —
which mutates the registered session in place without removing it. -/
inductive HubOp where
  | handle (pattern : String) (hid : Nat)
  | setDefault (hid : Nat)
  | setCreatedObs
  | setDestroyedObs
  | connect (timeStr url : String)
  | connectWithID (sid url : String)
  | disconnect (sid : String)
  | closeSession (sid : String)
  | handleMessage (sid : String) (d : WireData)
  | send (sid : String) (e : Envelope)
  | hubClose
deriving Repr

/-- One hub-level operation, returning the new hub and the emitted events. -/
def hubStep (env : Nat → HandlerBeh) (hb : Hub) : HubOp → Hub × List Event
  | HubOp.handle pattern hid => (hb.handle pattern hid, [])
  | HubOp.setDefault hid => (hb.setDefaultHandler hid, [])
  | HubOp.setCreatedObs => ({ hb with hasCreatedObs := true }, [])
  | HubOp.setDestroyedObs => ({ hb with hasDestroyedObs := true }, [])
  | HubOp.connect timeStr url =>
    let r := Hub.connect env hb timeStr url
    (r.1, r.2.1)
  | HubOp.connectWithID sid url =>
    let r := Hub.connectWithID env hb sid url
    (r.1, r.2.1)
  | HubOp.disconnect sid => hb.disconnect sid
  | HubOp.closeSession sid =>
    match hb.sessions.lookup sid with
    | none => (hb, [])
    | some s =>
      let r := Session.close s
      ({ hb with sessions := alSet sid r.1 hb.sessions }, r.2)
  | HubOp.handleMessage sid d =>
    let r := Hub.handleMessage env hb sid d
    (r.1, [])
  | HubOp.send sid e =>
    let r := Hub.send hb sid e
    (r.1, [])
  | HubOp.hubClose => hb.closeHub

/-- Run a list of hub operations from a starting hub, accumulating events. -/
def hubRun (env : Nat → HandlerBeh) (hb : Hub) :
    List HubOp → Hub × List Event
  | [] => (hb, [])
  | op :: ops =>
    let r1 := hubStep env hb op
    let r2 := hubRun env r1.1 ops
    (r2.1, r1.2 ++ r2.2)

/-- The closed flag of the session registered under `sid`, when present. -/
def lookupClosed (hb : Hub) (sid : String) : Option Bool :=
  (hb.sessions.lookup sid).map (fun s => s.closed)

/-- Whether a session carries a handler whose `OnConnect` accepts. -/
def sessionOK (env : Nat → HandlerBeh) (s : Session) : Bool :=
  match s.handler with
  | some h => !(env h).connectError
  | none => false

/-- Whether every registered session carries a handler whose `OnConnect`
accepted it. -/
def allAccepted (env : Nat → HandlerBeh) (hb : Hub) : Bool :=
  hb.sessions.all (fun p => sessionOK env p.2)

/-- An HTTP request as seen by the security middleware: method, URL path,
and headers. -/
structure HttpRequest where
  method : String
  path : String
  headers : List (String × String)
deriving DecidableEq, Repr

/-- Go `r.Header.Get(key)`: the stored value, or the empty string. -/
def headerGet (req : HttpRequest) (key : String) : String :=
  (req.headers.lookup key).getD ""

/-- Outcome of a middleware layer: either a rejection response, or the
request was passed to the wrapped dispatcher. -/
inductive MWResult where
  | forbidden (status : Nat)
  | dispatched
deriving DecidableEq, Repr

/-- Function `SecretValidationMiddleware` (`pkg/router/security.go` lines
17-45): GET/HEAD/OPTIONS pass through; then any configured exclude-path
prefix passes through; then the `X-Irgo-Secret` header must equal the
secret, else 403. -/
def secretValidation (secret : String) (excludePaths : List String)
    (req : HttpRequest) : MWResult :=
  if req.method = "GET" || req.method = "HEAD" || req.method = "OPTIONS" then
    MWResult.dispatched
  else if excludePaths.any (fun p => strStarts p req.path) then
    MWResult.dispatched
  else if headerGet req "X-Irgo-Secret" ≠ secret then
    MWResult.forbidden 403
  else MWResult.dispatched

/-- URL-safe base64 alphabet (RFC 4648 section 5), as used by Go's
`base64.URLEncoding`. -/
def b64Alphabet : List Char :=
  ['A', 'B', 'C', 'D', 'E', 'F', 'G', 'H', 'I', 'J', 'K', 'L', 'M',
   'N', 'O', 'P', 'Q', 'R', 'S', 'T', 'U', 'V', 'W', 'X', 'Y', 'Z',
   'a', 'b', 'c', 'd', 'e', 'f', 'g', 'h', 'i', 'j', 'k', 'l', 'm',
   'n', 'o', 'p', 'q', 'r', 's', 't', 'u', 'v', 'w', 'x', 'y', 'z',
   '0', '1', '2', '3', '4', '5', '6', '7', '8', '9', '-', '_']

/-- The alphabet character for a 6-bit value. -/
def b64Char (n : Nat) : Char :=
  b64Alphabet.getD n 'A'

/-- Go `base64.URLEncoding.EncodeToString` on a byte list: URL-safe alphabet
WITH `=` padding (`URLEncoding` is padded; the unpadded variant is
`RawURLEncoding`, which the source does not use). -/
def b64urlEncodeList : List Nat → List Char
  | [] => []
  | [a] =>
    [b64Char (a / 4), b64Char (a % 4 * 16), '=', '=']
  | [a, b] =>
    [b64Char (a / 4), b64Char (a % 4 * 16 + b / 16), b64Char (b % 16 * 4), '=']
  | a :: b :: c :: rest =>
    b64Char (a / 4) :: b64Char (a % 4 * 16 + b / 16) ::
      b64Char (b % 16 * 4 + c / 64) :: b64Char (c % 64) ::
      b64urlEncodeList rest

/-- Function `GenerateSecret` (`desktop/security.go` lines 11-17), success
path: the 32 bytes drawn from `crypto/rand` are passed in as `randBytes`,
and the result is `base64.URLEncoding.EncodeToString` of them. -/
def GenerateSecret (randBytes : List Nat) : String :=
  String.mk (b64urlEncodeList randBytes)

/-- Fixed handler environment used for the concrete scenarios: every handler
accepts `OnConnect` and replies with no envelope. -/
def env0 : Nat → HandlerBeh :=
  fun _ => { connectError := false, onMessage := fun _ => Except.ok none }

/-- Operation sequence reaching a hub whose single session is open with a
full send queue: connect, then 100 successful sends. -/
def c5Ops : List HubOp :=
  HubOp.handle "/ws/" 0 :: HubOp.connectWithID "s1" "/ws/x" ::
    List.replicate 100 (HubOp.send "s1" ⟨0⟩)

/-- The hub state reached by `c5Ops`. -/
def c5Hub : Hub :=
  (hubRun env0 Hub.new c5Ops).1

/-- The hub used to witness C7: handler 0 registered on `/ws/x` with an
existing session `sid`. -/
def c7Hub : Hub :=
  (hubRun env0 Hub.new
    [HubOp.handle "/ws/x" 0, HubOp.connectWithID "sid" "/ws/x"]).1

/-- Session closed by `Session.Close` right after construction, used to
instantiate the closed-session properties. -/
def closedS : Session :=
  (Session.close (NewSession "c1w" "/ws" (some 0))).1

/-- A session id was accepted during a run: its handler's `OnConnect` was
invoked and returned no error. -/
def sessionAccepted (env : Nat → HandlerBeh) (tr : List Event)
    (sid : String) : Prop :=
  ∃ h, Event.onConnect h sid ∈ tr ∧ (env h).connectError = false

/-- A session id was closed during a run: its send queue was closed. -/
def sessionClosedEvt (tr : List Event) (sid : String) : Prop :=
  Event.sendChanClosed sid ∈ tr

/-- The freshness guarantee of `generateSessionID` at one step (the spec:
session-id generation is monotonic and unique across the hub's lifetime):
a `connect` operation's generated id is not already registered.  All other
operations carry no obligation. -/
def connectFresh (hb : Hub) : HubOp → Bool
  | HubOp.connect timeStr _ =>
    (hb.sessions.lookup (generateSessionID timeStr (hb.counter + 1))).isNone
  | _ => true

/-- The freshness guarantee along a whole run. -/
def hubRunFresh (env : Nat → HandlerBeh) (hb : Hub) : List HubOp → Bool
  | [] => true
  | op :: ops =>
    connectFresh hb op && hubRunFresh env (hubStep env hb op).1 ops

/-- Inductive invariant tying the registry to the event trace: registered
sessions are keyed by their own id; a registered closed session's queue
closure is on the trace; and an id that was accepted and never closed is
registered and still open. -/
def HubInv (env : Nat → HandlerBeh) (hb : Hub) (tr : List Event) : Prop :=
  (∀ p ∈ hb.sessions, (p.2 : Session).id = p.1) ∧
  (∀ p ∈ hb.sessions, (p.2 : Session).closed = true →
     Event.sendChanClosed p.1 ∈ tr) ∧
  (∀ sid, sessionAccepted env tr sid → ¬ sessionClosedEvt tr sid →
     ∃ s, hb.sessions.lookup sid = some s ∧ s.closed = false)

/-- Membership of a session, by key and value, in a hub list model. -/
theorem lookup_mem {α : Type} {l : List (String × α)} {k : String} {v : α}
    (h : l.lookup k = some v) : (k, v) ∈ l := by
  induction l with
  | nil => simp [List.lookup] at h
  | cons p rest ih =>
    obtain ⟨k1, v1⟩ := p
    rw [List.lookup] at h
    cases hk : (k == k1) with
    | true =>
      rw [hk] at h
      simp only [Option.some.injEq] at h
      have hkk : k = k1 := eq_of_beq hk
      subst hkk
      subst h
      exact List.mem_cons_self _ _
    | false =>
      rw [hk] at h
      exact List.mem_cons_of_mem _ (ih h)

/-- C3: the secret-validation middleware returns 403 without invoking the
wrapped dispatcher for every request whose method is not GET, HEAD, or
OPTIONS, whose path starts with no exclude prefix, and whose `X-Irgo-Secret`
header differs from the secret; and every GET, HEAD, or OPTIONS request is
passed to the dispatcher unconditionally. -/
theorem secret_validation_semantics :
    (∀ (secret : String) (ex : List String) (req : HttpRequest),
       req.method ≠ "GET" → req.method ≠ "HEAD" → req.method ≠ "OPTIONS" →
       (∀ p ∈ ex, strStarts p req.path = false) →
       headerGet req "X-Irgo-Secret" ≠ secret →
       secretValidation secret ex req = MWResult.forbidden 403) ∧
    (∀ (secret : String) (ex : List String) (req : HttpRequest),
       req.method = "GET" ∨ req.method = "HEAD" ∨ req.method = "OPTIONS" →
       secretValidation secret ex req = MWResult.dispatched) := by
  constructor
  · intro secret ex req hg hh ho hex hsec
    have hany : ex.any (fun p => strStarts p req.path) = false := by
      rw [List.any_eq_false]
      intro p hp
      simp [hex p hp]
    simp [secretValidation, hg, hh, ho, hany, hsec]
  · intro secret ex req hm
    rcases hm with hm | hm | hm <;> simp [secretValidation, hm]

/-- C3 witness: a POST to `/api/foo` with no matching exclude prefix and a
wrong secret is rejected with 403. -/
theorem secret_validation_semantics_witness :
    secretValidation "XYZ" ["/static/"]
      { method := "POST", path := "/api/foo", headers := [] } =
    MWResult.forbidden 403 :=
  secret_validation_semantics.1 "XYZ" ["/static/"]
    { method := "POST", path := "/api/foo", headers := [] }
    (by decide) (by decide) (by decide) (by decide) (by decide)

/-- C8: `GetString` returns the empty string when the key is absent or the
stored value is not a string, `GetInt` returns 0 when the key is absent or
the stored value is not an int, and neither accessor modifies the session. -/
theorem metadata_accessor_defaults :
    (∀ (s : Session) (k : String), s.metadata.lookup k = none →
       Session.getString s k = ("", s) ∧ Session.getInt s k = (0, s)) ∧
    (∀ (s : Session) (k : String) (v : MetaValue),
       s.metadata.lookup k = some v → (∀ str, v ≠ MetaValue.str str) →
       Session.getString s k = ("", s)) ∧
    (∀ (s : Session) (k : String) (v : MetaValue),
       s.metadata.lookup k = some v → (∀ n, v ≠ MetaValue.int n) →
       Session.getInt s k = (0, s)) ∧
    (∀ (s : Session) (k : String),
       (Session.getString s k).2 = s ∧ (Session.getInt s k).2 = s) := by
  refine ⟨?_, ?_, ?_, ?_⟩
  · intro s k h
    simp [Session.getString, Session.getInt, h]
  · intro s k v h hv
    cases v with
    | str str => exact absurd rfl (hv str)
    | int n => simp [Session.getString, h]
    | boolean b => simp [Session.getString, h]
  · intro s k v h hv
    cases v with
    | int n => exact absurd rfl (hv n)
    | str str => simp [Session.getInt, h]
    | boolean b => simp [Session.getInt, h]
  · intro s k
    constructor <;> simp [Session.getString, Session.getInt]

/-- C8 witness: on a session whose metadata holds an int under `"k"` and
nothing under `"missing"`, `GetString "k"`, `GetString "missing"` and
`GetInt "missing"` all return their zero values and leave the session
unchanged. -/
theorem metadata_accessor_defaults_witness :
    Session.getString (Session.set (NewSession "s" "/ws" none) "k"
      (MetaValue.int 5)) "k" =
      ("", Session.set (NewSession "s" "/ws" none) "k" (MetaValue.int 5)) ∧
    Session.getInt (Session.set (NewSession "s" "/ws" none) "k"
      (MetaValue.str "x")) "k" =
      (0, Session.set (NewSession "s" "/ws" none) "k" (MetaValue.str "x")) :=
  ⟨metadata_accessor_defaults.2.1
     (Session.set (NewSession "s" "/ws" none) "k" (MetaValue.int 5)) "k"
     (MetaValue.int 5) (by decide) (fun str => by simp),
   metadata_accessor_defaults.2.2.1
     (Session.set (NewSession "s" "/ws" none) "k" (MetaValue.str "x")) "k"
     (MetaValue.str "x") (by decide) (fun n => by simp)⟩

/-- C9: for every non-positive requested buffer size, `newInProcessChannel`
builds an incoming buffer of capacity 100, which is exactly the
`ChannelBufferSize` of `DefaultConfig`; `OpenChannel` passes the configured
size through, so an unset, zero, or negative `ChannelBufferSize` also yields
capacity 100. -/
theorem channel_buffer_default (b : Int) (hb : b ≤ 0) :
    newInProcessChannelBufferSize b = 100 ∧
    DefaultConfig.channelBufferSize = 100 ∧
    (∀ cfg : Config, cfg.channelBufferSize ≤ 0 →
       openChannelBufferSize cfg = DefaultConfig.channelBufferSize) := by
  refine ⟨?_, rfl, ?_⟩
  · simp [newInProcessChannelBufferSize, hb]
  · intro cfg hcfg
    simp [openChannelBufferSize, newInProcessChannelBufferSize, hcfg,
      DefaultConfig]

/-- C9 witness: requested size 0 (the Go zero value) yields capacity 100. -/
theorem channel_buffer_default_witness :
    newInProcessChannelBufferSize 0 = 100 ∧
    DefaultConfig.channelBufferSize = 100 ∧
    (∀ cfg : Config, cfg.channelBufferSize ≤ 0 →
       openChannelBufferSize cfg = DefaultConfig.channelBufferSize) :=
  channel_buffer_default 0 (by decide)

/-- C10: `Hub.Disconnect` on an unregistered id leaves the hub (registry and
all sessions) unchanged and emits no events, so no session is closed and the
destroyed-observer is not invoked. -/
theorem disconnect_missing_id_noop (hb : Hub) (sid : String)
    (h : hb.sessions.lookup sid = none) :
    Hub.disconnect hb sid = (hb, []) := by
  simp [Hub.disconnect, h]

/-- C10 witness: disconnecting `"nope"` from a hub holding only `"s1"` is a
no-op. -/
theorem disconnect_missing_id_noop_witness :
    Hub.disconnect
      { Hub.new with sessions := [("s1", NewSession "s1" "/ws/x" (some 0))] }
      "nope" =
    ({ Hub.new with sessions := [("s1", NewSession "s1" "/ws/x" (some 0))] },
     []) :=
  disconnect_missing_id_noop
    { Hub.new with sessions := [("s1", NewSession "s1" "/ws/x" (some 0))] }
    "nope" (by decide)

/-- C2: handler resolution prefers the exact match (even when prefix
patterns also match), falls back to a registered prefix pattern (one that
ends in `/` and is a prefix of the URL) only when no exact match exists, and
only when neither matches performs the same exact-then-prefix pass on the
path extracted by stripping scheme and host; `extractPath` strips
`scheme://host` as in the source (checked on a concrete full URL). -/
theorem find_handler_resolution_order :
    (∀ (hs : List (String × Nat)) (u : String) (h : Nat),
       hs.lookup u = some h → findHandler hs u = some h) ∧
    (∀ (hs : List (String × Nat)) (u : String) (h : Nat),
       hs.lookup u = none → patternScan hs u = some h →
       findHandler hs u = some h ∧
       ∃ p, (p, h) ∈ hs ∧ strEnds "/" p = true ∧ strStarts p u = true) ∧
    (∀ (hs : List (String × Nat)) (u : String),
       hs.lookup u = none → patternScan hs u = none →
       findHandler hs u = findHandlerPathPass hs u) ∧
    extractPath "ws://example.com/ws/chat" = "/ws/chat" := by
  refine ⟨?_, ?_, ?_, by decide⟩
  · intro hs u h hl
    simp [findHandler, hl]
  · intro hs u h hl hp
    refine ⟨by simp [findHandler, hl, hp], ?_⟩
    unfold patternScan at hp
    cases hf : hs.find? (fun p => strEnds "/" p.1 && strStarts p.1 u) with
    | none => rw [hf] at hp; simp at hp
    | some q =>
      rw [hf] at hp
      simp only [Option.map, Option.some.injEq] at hp
      have hmem := List.mem_of_find?_eq_some hf
      have hsat := List.find?_some hf
      simp only [Bool.and_eq_true] at hsat
      obtain ⟨q1, q2⟩ := q
      subst hp
      exact ⟨q1, hmem, hsat.1, hsat.2⟩
  · intro hs u hl hp
    simp [findHandler, findHandlerPathPass, hl, hp]

/-- C2 witness: with handler 0 on the prefix pattern `/ws/` and handler 1 on
the exact pattern `/ws/chat`, the URL `/ws/chat` resolves to handler 1. -/
theorem find_handler_resolution_order_witness :
    findHandler [("/ws/", 0), ("/ws/chat", 1)] "/ws/chat" = some 1 :=
  find_handler_resolution_order.1 [("/ws/", 0), ("/ws/chat", 1)] "/ws/chat" 1
    (by decide)

/-- Length of the padded base64 encoding: four output characters per started
three-byte group. -/
theorem b64urlEncodeList_length (bs : List Nat) :
    (b64urlEncodeList bs).length = 4 * ((bs.length + 2) / 3) := by
  induction bs using b64urlEncodeList.induct with
  | case1 => simp [b64urlEncodeList]
  | case2 a => simp [b64urlEncodeList]
  | case3 a b => simp [b64urlEncodeList]
  | case4 a b c rest ih =>
    simp only [b64urlEncodeList, List.length_cons]
    rw [ih]
    omega

/-- A byte list whose length is 2 modulo 3 encodes to a string ending in the
padding character. -/
theorem b64urlEncodeList_pad (bs : List Nat) (h : bs.length % 3 = 2) :
    (b64urlEncodeList bs).getLast? = some '=' := by
  induction bs using b64urlEncodeList.induct with
  | case1 => simp at h
  | case2 a => simp at h
  | case3 a b => simp [b64urlEncodeList]
  | case4 a b c rest ih =>
    have hr : rest.length % 3 = 2 := by
      simp only [List.length_cons] at h
      omega
    have hne : b64urlEncodeList rest ≠ [] := by
      intro hnil
      have := b64urlEncodeList_length rest
      rw [hnil] at this
      simp at this
      omega
    simp only [b64urlEncodeList]
    rw [List.getLast?_cons, List.getLast?_cons, List.getLast?_cons,
      List.getLast?_cons]
    simp [ih hr, Option.getD, hne]

/-- C6: the source encodes the 32 random bytes with `base64.URLEncoding`,
which pads: the result of `GenerateSecret` is a 44-character string whose
last character is `=`, for every 32-byte random draw — contradicting the
function's own doc comment ("resulting in a 43-character string") and the
specified 43-character unpadded form, which would require
`base64.RawURLEncoding`. -/
theorem generate_secret_is_padded_44 (bs : List Nat) (h : bs.length = 32) :
    (GenerateSecret bs).length = 44 ∧
    (GenerateSecret bs).toList.getLast? = some '=' ∧
    (GenerateSecret bs).length ≠ 43 := by
  have hlen := b64urlEncodeList_length bs
  rw [h] at hlen
  have hpad := b64urlEncodeList_pad bs (by rw [h])
  refine ⟨?_, ?_, ?_⟩
  · show (String.mk (b64urlEncodeList bs)).length = 44
    simp [String.length, hlen]
  · show (String.mk (b64urlEncodeList bs)).toList.getLast? = some '='
    simpa [String.toList] using hpad
  · show (String.mk (b64urlEncodeList bs)).length ≠ 43
    simp [String.length, hlen]

/-- C6 witness: on the all-zero 32-byte draw the secret is the 44-character
padded string, not a 43-character one. -/
theorem generate_secret_is_padded_44_witness :
    (GenerateSecret (List.replicate 32 0)).length = 44 ∧
    (GenerateSecret (List.replicate 32 0)).toList.getLast? = some '=' ∧
    (GenerateSecret (List.replicate 32 0)).length ≠ 43 :=
  generate_secret_is_padded_44 (List.replicate 32 0) (by decide)

set_option maxRecDepth 100000 in
/-- C5 counterexample: in the reachable state `c5Hub` the session `s1` is
open, yet `Hub.Send` reports the session-closed error kind for its full
queue rather than a queue-full kind. -/
theorem hub_send_full_open_session_counterexample :
    lookupClosed c5Hub "s1" = some false ∧
    (Hub.send c5Hub "s1" ⟨7⟩).2 = Except.error WsError.sessionClosed :=
  ⟨rfl, rfl⟩

/-- C5 amended: `Channel.Send` does surface distinct kinds — a closed
channel or session yields `ErrChannelClosed` and an open session with a
full queue yields `ErrChannelFull` — but `Hub.Send` maps every `false` from
`Session.Send` to `ErrSessionClosed`, so an open registered session with a
full queue yields the session-closed kind there, not a queue-full kind. -/
theorem send_error_kind_mapping :
    (∀ (c : ChannelState) (s : Session) (m : Envelope),
       c.chClosed = false → s.closed = false → s.queueCap ≤ s.queue.length →
       channelSend c s m = (s, Except.error TransportError.channelFull)) ∧
    (∀ (c : ChannelState) (s : Session) (m : Envelope),
       c.chClosed = true ∨ s.closed = true →
       (channelSend c s m).2 = Except.error TransportError.channelClosed) ∧
    (∀ (hb : Hub) (sid : String) (s : Session) (e : Envelope),
       hb.sessions.lookup sid = some s → s.closed = false →
       s.queueCap ≤ s.queue.length →
       (Hub.send hb sid e).2 = Except.error WsError.sessionClosed) := by
  refine ⟨?_, ?_, ?_⟩
  · intro c s m hc hs hfull
    simp [channelSend, Session.isClosed, hc, hs, Session.send,
      Nat.not_lt.mpr hfull]
  · intro c s m hcs
    rcases hcs with hc | hs
    · simp [channelSend, hc]
    · simp [channelSend, Session.isClosed, hs]
  · intro hb sid s e hl hs hfull
    simp [Hub.send, hl, Session.send, hs, Nat.not_lt.mpr hfull]

/-- C5 amended witness: on an open session with a full queue, `Channel.Send`
yields the queue-full kind while `Hub.Send` yields the session-closed kind. -/
theorem send_error_kind_mapping_witness :
    channelSend { chClosed := false }
      { NewSession "s1" "/ws/x" (some 0) with queue := List.replicate 100 ⟨0⟩ }
      ⟨7⟩ =
      ({ NewSession "s1" "/ws/x" (some 0) with
          queue := List.replicate 100 ⟨0⟩ },
       Except.error TransportError.channelFull) ∧
    (Hub.send
      { Hub.new with sessions :=
          [("s1", { NewSession "s1" "/ws/x" (some 0) with
                      queue := List.replicate 100 ⟨0⟩ })] }
      "s1" ⟨7⟩).2 = Except.error WsError.sessionClosed :=
  ⟨send_error_kind_mapping.1 { chClosed := false }
     { NewSession "s1" "/ws/x" (some 0) with queue := List.replicate 100 ⟨0⟩ }
     ⟨7⟩ rfl rfl (by simp [NewSession]),
   send_error_kind_mapping.2.2
     { Hub.new with sessions :=
         [("s1", { NewSession "s1" "/ws/x" (some 0) with
                     queue := List.replicate 100 ⟨0⟩ })] }
     "s1"
     { NewSession "s1" "/ws/x" (some 0) with queue := List.replicate 100 ⟨0⟩ }
     ⟨7⟩ rfl rfl (by simp [NewSession])⟩

/-- C7: when `ConnectWithID(id, url)` finds an existing session under `id`
and the resolved handler's `OnConnect` accepts, the old session is closed
first (its send queue closed and its handler's `OnClose` invoked, in that
order, before the new session's `OnConnect`), and afterwards the newly
created session is the one registered under `id`. -/
theorem connect_with_id_reconnection (env : Nat → HandlerBeh) (hb : Hub)
    (sid url : String) (old : Session) (h hOld : Nat)
    (hold : hb.sessions.lookup sid = some old)
    (hres : resolveHandler hb url = Except.ok h)
    (hacc : (env h).connectError = false)
    (hopen : old.closed = false)
    (hh : old.handler = some hOld)
    (hid : old.id = sid) :
    (Hub.connectWithID env hb sid url).1.sessions.lookup sid =
      some (NewSession sid url (some h)) ∧
    (Hub.connectWithID env hb sid url).2.2 =
      Except.ok (NewSession sid url (some h)) ∧
    (Hub.connectWithID env hb sid url).2.1 =
      Event.sendChanClosed sid :: Event.onClose hOld sid ::
        Event.onConnect h sid ::
        (if hb.hasCreatedObs then [Event.sessionCreatedObs sid] else []) := by
  simp only [Hub.connectWithID, hres, hold, hacc, Session.close, hopen, hh,
    hid, Bool.false_eq_true, if_false]
  simp [alSet, List.lookup]

/-- C7 witness: a second `ConnectWithID("sid", "/ws/x")` on `c7Hub` closes
the old session, re-registers `sid` to the new session, and invokes the new
session's `OnConnect`. -/
theorem connect_with_id_reconnection_witness :
    (Hub.connectWithID env0 c7Hub "sid" "/ws/x").1.sessions.lookup "sid" =
      some (NewSession "sid" "/ws/x" (some 0)) ∧
    (Hub.connectWithID env0 c7Hub "sid" "/ws/x").2.2 =
      Except.ok (NewSession "sid" "/ws/x" (some 0)) ∧
    (Hub.connectWithID env0 c7Hub "sid" "/ws/x").2.1 =
      Event.sendChanClosed "sid" :: Event.onClose 0 "sid" ::
        Event.onConnect 0 "sid" ::
        (if c7Hub.hasCreatedObs then [Event.sessionCreatedObs "sid"]
         else []) :=
  connect_with_id_reconnection env0 c7Hub "sid" "/ws/x"
    (NewSession "sid" "/ws/x" (some 0)) 0 0 rfl rfl rfl rfl rfl rfl

/-- `HandleMessage` changes neither the closed latch nor the handler of a
session (it only records a pending entry). -/
theorem handleMessage_fields (env : Nat → HandlerBeh) (s : Session)
    (d : WireData) :
    (Session.handleMessage env s d).1.closed = s.closed ∧
    (Session.handleMessage env s d).1.handler = s.handler := by
  cases d with
  | malformed => exact ⟨rfl, rfl⟩
  | frame req =>
    unfold Session.handleMessage
    simp only [ParseRequest]
    split
    all_goals split
    all_goals try split
    all_goals simp_all [Session.trackPending]

/-- A step on a closed session keeps it closed and emits no events. -/
theorem sessionStep_closed (env : Nat → HandlerBeh) (s : Session)
    (op : SessionOp) (h : s.closed = true) :
    (sessionStep env s op).1.closed = true ∧ (sessionStep env s op).2 = [] := by
  cases op with
  | close => simp [sessionStep, Session.close, h]
  | send e =>
    refine ⟨?_, rfl⟩
    simp only [sessionStep, Session.send, h, ite_true, if_true]
  | handleMessage d =>
    exact ⟨(handleMessage_fields env s d).1.trans h, rfl⟩
  | set k v => exact ⟨h, rfl⟩

/-- A run started on a closed session emits no events at all and ends
closed. -/
theorem sessionRun_closed (env : Nat → HandlerBeh) (ops : List SessionOp) :
    ∀ s : Session, s.closed = true →
      (sessionRun env s ops).1.closed = true ∧
      (sessionRun env s ops).2 = [] := by
  induction ops with
  | nil => exact fun s h => ⟨h, rfl⟩
  | cons op ops ih =>
    intro s h
    have hs := sessionStep_closed env s op h
    have hrest := ih (sessionStep env s op).1 hs.1
    simp only [sessionRun]
    exact ⟨hrest.1, by rw [hs.2, hrest.2]; rfl⟩

/-- Case split for a step on an open session with an attached handler: the
step is either the closing step, which emits exactly the queue-closure and
`OnClose` events, or it emits nothing and leaves the session open with the
same handler. -/
theorem sessionStep_open (env : Nat → HandlerBeh) (s : Session)
    (op : SessionOp) (hid : Nat) (h : s.closed = false)
    (hh : s.handler = some hid) :
    sessionStep env s op =
      ({ s with closed := true, queueClosed := true },
       [Event.sendChanClosed s.id, Event.onClose hid s.id]) ∨
    ((sessionStep env s op).2 = [] ∧
     (sessionStep env s op).1.closed = false ∧
     (sessionStep env s op).1.handler = some hid) := by
  cases op with
  | close =>
    left
    simp [sessionStep, Session.close, h, hh]
  | send e =>
    right
    refine ⟨rfl, ?_, ?_⟩ <;>
      simp only [sessionStep, Session.send, h, ite_false, if_false,
        Bool.false_eq_true] <;>
      split <;> simp [h, hh]
  | handleMessage d =>
    right
    exact ⟨rfl, (handleMessage_fields env s d).1.trans h,
      (handleMessage_fields env s d).2.trans hh⟩
  | set k v => exact Or.inr ⟨rfl, h, hh⟩

/-- Over any run from an open session with an attached handler, `OnClose` is
invoked exactly once and the send queue is closed exactly once when the run
ends closed, and neither happens while it is still open. -/
theorem sessionRun_counts (env : Nat → HandlerBeh) (ops : List SessionOp) :
    ∀ (s : Session) (hid : Nat), s.closed = false → s.handler = some hid →
      countOnClose (sessionRun env s ops).2 =
        (if (sessionRun env s ops).1.closed then 1 else 0) ∧
      countChanClosed (sessionRun env s ops).2 =
        (if (sessionRun env s ops).1.closed then 1 else 0) := by
  induction ops with
  | nil =>
    intro s hid h _
    simp [sessionRun, countOnClose, countChanClosed, h]
  | cons op ops ih =>
    intro s hid h hh
    rcases sessionStep_open env s op hid h hh with hcl | ⟨h1, h2, h3⟩
    · have hrest := sessionRun_closed env ops
        { s with closed := true, queueClosed := true } rfl
      simp only [sessionRun, hcl, hrest.2]
      simp [countOnClose, countChanClosed, hrest.1]
    · have hrest := ih (sessionStep env s op).1 hid h2 h3
      simp only [sessionRun, h1]
      simpa using hrest

/-- The result component of `HandleMessage` depends only on the parse
outcome, the session's handler, and the handler's behaviour — in
particular not on the closed latch. -/
theorem handleMessage_result (env : Nat → HandlerBeh) (s : Session)
    (d : WireData) :
    (Session.handleMessage env s d).2 =
      (match ParseRequest d with
       | Except.error e => Except.error e
       | Except.ok req =>
         match s.handler with
         | some h =>
           match (env h).onMessage req with
           | Except.error _ => Except.error WsError.handlerError
           | Except.ok oe => Except.ok oe
         | none => Except.ok none) := by
  unfold Session.handleMessage
  cases ParseRequest d with
  | error e => rfl
  | ok req =>
    by_cases hr : req.requestID ≠ "" <;>
      [simp only [if_pos hr, Session.trackPending]; simp only [if_neg hr]] <;>
      split <;>
      try split
    all_goals rfl

/-- C1 counterexample: a session closed via `Session.Close`, given a
well-formed frame, has `HandleMessage` return `(nil, nil)` — it does not
signal the closed-session error, because `Session.HandleMessage` never
consults the closed latch. -/
theorem session_handle_message_after_close_counterexample :
    closedS.closed = true ∧
    (Session.handleMessage env0 closedS
       (WireData.frame { requestID := "" })).2 = Except.ok none ∧
    (Session.handleMessage env0 closedS
       (WireData.frame { requestID := "" })).2 ≠
      Except.error WsError.sessionClosed :=
  ⟨rfl, rfl, fun hcon => Except.noConfusion hcon⟩

/-- C1 amended: on a closed session `Send` returns `false` and `Close` is a
no-op; over any operation sequence on a fresh session with an attached
handler, `OnClose` is invoked exactly once and the send queue is closed
exactly once (exactly when the run ends closed, never before); the
closed-session error is signalled by `Hub.HandleMessage`, which checks
`IsClosed` before delegating — `Session.HandleMessage` itself never
consults the closed latch and returns the same result with the latch set or
cleared. -/
theorem closed_session_lifecycle (env : Nat → HandlerBeh) :
    (∀ (s : Session) (e : Envelope), s.closed = true →
       Session.send s e = (s, false)) ∧
    (∀ s : Session, s.closed = true → Session.close s = (s, [])) ∧
    (∀ (id url : String) (hid : Nat) (ops : List SessionOp),
       countOnClose (sessionRun env (NewSession id url (some hid)) ops).2 =
         (if (sessionRun env (NewSession id url (some hid)) ops).1.closed
          then 1 else 0) ∧
       countChanClosed (sessionRun env (NewSession id url (some hid)) ops).2 =
         (if (sessionRun env (NewSession id url (some hid)) ops).1.closed
          then 1 else 0)) ∧
    (∀ (hb : Hub) (sid : String) (s : Session) (d : WireData),
       hb.sessions.lookup sid = some s → s.closed = true →
       (Hub.handleMessage env hb sid d).2 =
         Except.error WsError.sessionClosed) ∧
    (∀ (s : Session) (d : WireData),
       (Session.handleMessage env { s with closed := true } d).2 =
       (Session.handleMessage env { s with closed := false } d).2) := by
  refine ⟨?_, ?_, ?_, ?_, ?_⟩
  · intro s e h
    simp [Session.send, h]
  · intro s h
    simp [Session.close, h]
  · intro id url hid ops
    exact sessionRun_counts env ops (NewSession id url (some hid)) hid rfl rfl
  · intro hb sid s d hl hc
    simp [Hub.handleMessage, hl, Session.isClosed, hc]
  · intro s d
    rw [handleMessage_result, handleMessage_result]

/-- C1 witness: on the concrete closed session `closedS`, `Send` returns
`false` and `Close` is a no-op. -/
theorem closed_session_lifecycle_witness :
    Session.send closedS ⟨3⟩ = (closedS, false) ∧
    Session.close closedS = (closedS, []) :=
  ⟨(closed_session_lifecycle env0).1 closedS ⟨3⟩ rfl,
   (closed_session_lifecycle env0).2.1 closedS rfl⟩

/-- Closing a session does not change which handler accepted it. -/
theorem sessionOK_close (env : Nat → HandlerBeh) (s : Session) :
    sessionOK env (Session.close s).1 = sessionOK env s := by
  unfold Session.close
  split <;> rfl

/-- Sending on a session does not change which handler accepted it. -/
theorem sessionOK_send (env : Nat → HandlerBeh) (s : Session) (e : Envelope) :
    sessionOK env (Session.send s e).1 = sessionOK env s := by
  unfold Session.send
  split <;> try split
  all_goals rfl

/-- Handling a message does not change which handler accepted a session. -/
theorem sessionOK_handleMessage (env : Nat → HandlerBeh) (s : Session)
    (d : WireData) :
    sessionOK env (Session.handleMessage env s d).1 = sessionOK env s := by
  unfold sessionOK
  rw [(handleMessage_fields env s d).2]

/-- Filtering a list keeps an `all` property. -/
theorem all_filter {α : Type} (f g : α → Bool) (l : List α)
    (h : l.all f = true) : (l.filter g).all f = true := by
  rw [List.all_eq_true] at h ⊢
  intro x hx
  exact h x (List.mem_of_mem_filter hx)

/-- Map assignment keeps an `all` property when the new entry satisfies it. -/
theorem all_alSet {α : Type} (f : String × α → Bool) (k : String) (v : α)
    (l : List (String × α)) (hv : f (k, v) = true) (hl : l.all f = true) :
    (alSet k v l).all f = true := by
  simp only [alSet, List.all_cons, hv, Bool.true_and]
  exact all_filter _ _ _ hl

/-- Deleting a key straight after assigning it deletes the old binding too. -/
theorem alErase_alSet {α : Type} (k : String) (v : α)
    (l : List (String × α)) : alErase k (alSet k v l) = alErase k l := by
  simp [alErase, alSet, List.filter_filter]

/-- Every hub operation preserves the property that all registered sessions
were accepted by their handler's `OnConnect`. -/
theorem hubStep_accepted (env : Nat → HandlerBeh) (hb : Hub) (op : HubOp)
    (h : allAccepted env hb = true) :
    allAccepted env (hubStep env hb op).1 = true := by
  cases op with
  | handle pattern hid => exact h
  | setDefault hid => exact h
  | setCreatedObs => exact h
  | setDestroyedObs => exact h
  | hubClose => rfl
  | disconnect sid =>
    simp only [hubStep, Hub.disconnect]
    cases hl : hb.sessions.lookup sid with
    | none => exact h
    | some s => exact all_filter _ _ _ h
  | closeSession sid =>
    simp only [hubStep]
    cases hl : hb.sessions.lookup sid with
    | none => exact h
    | some s =>
      have hs : sessionOK env s = true :=
        List.all_eq_true.mp h _ (lookup_mem hl)
      exact all_alSet _ sid _ _ ((sessionOK_close env s).trans hs) h
  | handleMessage sid d =>
    simp only [hubStep, Hub.handleMessage]
    cases hl : hb.sessions.lookup sid with
    | none => exact h
    | some s =>
      dsimp only
      split
      · exact h
      · have hs : sessionOK env s = true :=
          List.all_eq_true.mp h _ (lookup_mem hl)
        exact all_alSet _ sid _ _
          ((sessionOK_handleMessage env s d).trans hs) h
  | send sid e =>
    simp only [hubStep, Hub.send]
    cases hl : hb.sessions.lookup sid with
    | none => exact h
    | some s =>
      dsimp only
      split
      · have hs : sessionOK env s = true :=
          List.all_eq_true.mp h _ (lookup_mem hl)
        exact all_alSet _ sid _ _ ((sessionOK_send env s e).trans hs) h
      · exact h
  | connect timeStr url =>
    simp only [hubStep, Hub.connect]
    cases hres : resolveHandler hb url with
    | error e => exact h
    | ok hid =>
      dsimp only
      split
      · rw [alErase_alSet]
        exact all_filter _ _ _ h
      · rename_i hacc
        have hacc2 : (env hid).connectError = false := by
          revert hacc
          cases (env hid).connectError <;> simp
        refine all_alSet _ _ _ _ ?_ h
        simp [sessionOK, NewSession, hacc2]
  | connectWithID sid url =>
    simp only [hubStep, Hub.connectWithID]
    cases hres : resolveHandler hb url with
    | error e => exact h
    | ok hid =>
      dsimp only
      split
      · rw [alErase_alSet]
        exact all_filter _ _ _ h
      · rename_i hacc
        have hacc2 : (env hid).connectError = false := by
          revert hacc
          cases (env hid).connectError <;> simp
        refine all_alSet _ _ _ _ ?_ h
        simp [sessionOK, NewSession, hacc2]

/-- Any run of hub operations preserves the all-accepted property. -/
theorem hubRun_accepted (env : Nat → HandlerBeh) (ops : List HubOp) :
    ∀ hb : Hub, allAccepted env hb = true →
      allAccepted env (hubRun env hb ops).1 = true := by
  induction ops with
  | nil => exact fun hb h => h
  | cons op ops ih =>
    intro hb h
    exact ih _ (hubStep_accepted env hb op h)

/-- C4 counterexample: starting from a fresh hub, register a handler,
connect session `s1`, then close it through its channel
(`InProcessChannel.Close` calls `Session.Close` but never touches the
registry): the resulting reachable state still has `s1` registered, and it
is closed. -/
theorem hub_closed_session_still_registered_counterexample :
    lookupClosed (hubRun env0 Hub.new
      [HubOp.handle "/ws/" 0, HubOp.connectWithID "s1" "/ws/x",
       HubOp.closeSession "s1"]).1 "s1" = some true := rfl



/-- Filtering out one key leaves lookups of other keys unchanged. -/
theorem lookup_filter_ne {α : Type} (sid k : String) (h : sid ≠ k)
    (l : List (String × α)) :
    (l.filter (fun p => decide (p.1 ≠ k))).lookup sid = l.lookup sid := by
  induction l with
  | nil => rfl
  | cons p rest ih =>
    by_cases hk : p.1 = k
    · have hb2 : (sid == p.1) = false := by
        rw [hk]
        exact beq_false_of_ne h
      have hcf : decide (p.1 ≠ k) = false := by simp [hk]
      rw [List.filter_cons, hcf, if_neg (by simp), ih, List.lookup, hb2]
    · have hd : decide (p.1 ≠ k) = true := by simp [hk]
      rw [List.filter_cons, hd, if_pos rfl, List.lookup, List.lookup]
      cases hsp : sid == p.1
      · exact ih
      · rfl

/-- Lookup of the key just assigned. -/
theorem alSet_lookup_self {α : Type} (k : String) (v : α)
    (l : List (String × α)) : (alSet k v l).lookup k = some v := by
  unfold alSet
  rw [List.lookup, beq_self_eq_true]

/-- Assignment leaves lookups of other keys unchanged. -/
theorem alSet_lookup_ne {α : Type} (sid k : String) (v : α)
    (l : List (String × α)) (h : sid ≠ k) :
    (alSet k v l).lookup sid = l.lookup sid := by
  unfold alSet
  rw [List.lookup, beq_false_of_ne h]
  exact lookup_filter_ne sid k h l

/-- Deletion leaves lookups of other keys unchanged. -/
theorem alErase_lookup_ne {α : Type} (sid k : String)
    (l : List (String × α)) (h : sid ≠ k) :
    (alErase k l).lookup sid = l.lookup sid :=
  lookup_filter_ne sid k h l

/-- Deleting an absent key is a no-op. -/
theorem lookup_none_alErase {α : Type} (k : String) (l : List (String × α))
    (h : l.lookup k = none) : alErase k l = l := by
  induction l with
  | nil => rfl
  | cons p rest ih =>
    rw [List.lookup] at h
    cases hk : (k == p.1) with
    | true => rw [hk] at h; cases h
    | false =>
      rw [hk] at h
      have hne : p.1 ≠ k := fun he => by
        rw [he, beq_self_eq_true] at hk
        cases hk
      unfold alErase
      rw [List.filter_cons, if_pos (by simp [hne])]
      exact congrArg (p :: ·) (ih h)

/-- Members of a map after assignment: the new binding or an old one. -/
theorem mem_alSet {α : Type} {p : String × α} {k : String} {v : α}
    {l : List (String × α)} (h : p ∈ alSet k v l) : p = (k, v) ∨ p ∈ l := by
  rcases List.mem_cons.mp h with h1 | h1
  · exact Or.inl h1
  · exact Or.inr (List.mem_of_mem_filter h1)

/-- Members of a map after deletion were members before. -/
theorem mem_alErase {α : Type} {p : String × α} {k : String}
    {l : List (String × α)} (h : p ∈ alErase k l) : p ∈ l :=
  List.mem_of_mem_filter h

/-- `Session.Close` keeps the id and handler and ends closed. -/
theorem close_fields (s : Session) :
    (Session.close s).1.id = s.id ∧ (Session.close s).1.closed = true ∧
    (Session.close s).1.handler = s.handler := by
  unfold Session.close
  split
  · rename_i h
    exact ⟨rfl, h, rfl⟩
  · exact ⟨rfl, rfl, rfl⟩

/-- `Session.Send` keeps the id and the closed latch. -/
theorem send_fields (s : Session) (e : Envelope) :
    (Session.send s e).1.id = s.id ∧ (Session.send s e).1.closed = s.closed := by
  unfold Session.send
  split
  · exact ⟨rfl, rfl⟩
  · split
    · exact ⟨rfl, rfl⟩
    · exact ⟨rfl, rfl⟩

/-- `Session.HandleMessage` keeps the session id. -/
theorem handleMessage_id (env : Nat → HandlerBeh) (s : Session)
    (d : WireData) : (Session.handleMessage env s d).1.id = s.id := by
  cases d with
  | malformed => rfl
  | frame req =>
    unfold Session.handleMessage
    simp only [ParseRequest]
    by_cases hr : req.requestID ≠ ""
    · rw [if_pos hr]
      split <;> try split
      all_goals rfl
    · rw [if_neg hr]
      split <;> try split
      all_goals rfl

/-- A queue-closure event appears in `Session.Close`'s output exactly for
the session's own id, and only when it was still open. -/
theorem mem_sendChanClosed_close (s : Session) (sid : String) :
    Event.sendChanClosed sid ∈ (Session.close s).2 ↔
      s.closed = false ∧ sid = s.id := by
  unfold Session.close
  split
  · rename_i h
    simp [h]
  · rename_i h
    rw [Bool.not_eq_true] at h
    cases hh : s.handler <;> simp [h, eq_comm]

/-- `Session.Close` emits no `OnConnect` events. -/
theorem mem_onConnect_close (s : Session) (h2 : Nat) (sid : String) :
    Event.onConnect h2 sid ∉ (Session.close s).2 := by
  unfold Session.close
  split
  · simp
  · cases hh : s.handler <;> simp

/-- Acceptance over a concatenated trace splits over its parts. -/
theorem sessionAccepted_append (env : Nat → HandlerBeh) (tr ev : List Event)
    (sid : String) :
    sessionAccepted env (tr ++ ev) sid ↔
      sessionAccepted env tr sid ∨ sessionAccepted env ev sid := by
  unfold sessionAccepted
  constructor
  · rintro ⟨h2, hm, hce⟩
    rcases List.mem_append.mp hm with hm1 | hm1
    · exact Or.inl ⟨h2, hm1, hce⟩
    · exact Or.inr ⟨h2, hm1, hce⟩
  · rintro (⟨h2, hm1, hce⟩ | ⟨h2, hm1, hce⟩)
    · exact ⟨h2, List.mem_append_left _ hm1, hce⟩
    · exact ⟨h2, List.mem_append_right _ hm1, hce⟩

/-- Closure over a concatenated trace splits over its parts. -/
theorem sessionClosedEvt_append (tr ev : List Event) (sid : String) :
    sessionClosedEvt (tr ++ ev) sid ↔
      sessionClosedEvt tr sid ∨ sessionClosedEvt ev sid := by
  unfold sessionClosedEvt
  exact List.mem_append

/-- Closure of an id on a trace prefix persists under extension
(contrapositive form). -/
theorem not_closed_left {tr ev : List Event} {sid : String}
    (h : ¬ sessionClosedEvt (tr ++ ev) sid) : ¬ sessionClosedEvt tr sid :=
  fun hc => h ((sessionClosedEvt_append tr ev sid).mpr (Or.inl hc))

/-- Acceptance on an extended trace came from the prefix when the extension
carries no `OnConnect` events for the id. -/
theorem accepted_of_append {env : Nat → HandlerBeh} {tr ev : List Event}
    {sid : String} (hacc : sessionAccepted env (tr ++ ev) sid)
    (hno : ∀ h2, Event.onConnect h2 sid ∉ ev) :
    sessionAccepted env tr sid := by
  rcases (sessionAccepted_append env tr ev sid).mp hacc with h1 | h1
  · exact h1
  · rcases h1 with ⟨h2, hm, _⟩
    exact absurd hm (hno h2)

/-- Each hub operation preserves `HubInv`, assuming the step's generated
session id (if any) is fresh. -/
theorem hubStep_inv (env : Nat → HandlerBeh) (hb : Hub) (op : HubOp)
    (tr : List Event) (hinv : HubInv env hb tr)
    (hf : connectFresh hb op = true) :
    HubInv env (hubStep env hb op).1 (tr ++ (hubStep env hb op).2) := by
  obtain ⟨ha, hbc, hcc⟩ := hinv
  cases op with
  | handle pattern hid =>
    simp only [hubStep, List.append_nil]
    exact ⟨ha, hbc, hcc⟩
  | setDefault hid =>
    simp only [hubStep, List.append_nil]
    exact ⟨ha, hbc, hcc⟩
  | setCreatedObs =>
    simp only [hubStep, List.append_nil]
    exact ⟨ha, hbc, hcc⟩
  | setDestroyedObs =>
    simp only [hubStep, List.append_nil]
    exact ⟨ha, hbc, hcc⟩
  | connect timeStr url =>
    have hfre : hb.sessions.lookup
        (generateSessionID timeStr (hb.counter + 1)) = none := by
      simp only [connectFresh] at hf
      exact Option.isNone_iff_eq_none.mp hf
    simp only [hubStep, Hub.connect]
    cases hres : resolveHandler hb url with
    | error e =>
      simp only [List.append_nil]
      exact ⟨ha, hbc, hcc⟩
    | ok h2 =>
      dsimp only
      split
      · -- OnConnect rejects: the fresh registration is rolled back.
        rw [alErase_alSet, lookup_none_alErase _ _ hfre]
        rename_i hacc
        refine ⟨ha, fun p hp hc => List.mem_append_left _ (hbc p hp hc),
          fun sid hacc2 hncl => ?_⟩
        have hacc3 : sessionAccepted env tr sid := by
          rcases (sessionAccepted_append env tr _ sid).mp hacc2 with h1 | h1
          · exact h1
          · exfalso
            rcases h1 with ⟨h4, hm, hce⟩
            simp only [List.mem_singleton] at hm
            injection hm with e1 e2
            subst e1
            rw [hacc] at hce
            exact Bool.noConfusion hce
        exact hcc sid hacc3 (not_closed_left hncl)
      · -- OnConnect accepts: the new session is registered, open.
        rename_i hacc
        refine ⟨fun p hp => ?_, fun p hp hc => ?_, fun sid hacc2 hncl => ?_⟩
        · rcases mem_alSet hp with rfl | h1
          · rfl
          · exact ha p h1
        · rcases mem_alSet hp with rfl | h1
          · simp [NewSession] at hc
          · exact List.mem_append_left _ (hbc p h1 hc)
        · by_cases hsid : sid = generateSessionID timeStr (hb.counter + 1)
          · subst hsid
            exact ⟨NewSession (generateSessionID timeStr (hb.counter + 1))
              url (some h2), alSet_lookup_self _ _ _, rfl⟩
          · have hacc3 : sessionAccepted env tr sid := by
              refine accepted_of_append hacc2 (fun h3 hm => ?_)
              rcases List.mem_cons.mp hm with hm1 | hm1
              · injection hm1 with e1 e2
                exact hsid e2
              · revert hm1
                cases hb.hasCreatedObs <;> simp
            obtain ⟨s, hs, hso⟩ := hcc sid hacc3 (not_closed_left hncl)
            exact ⟨s, by rw [alSet_lookup_ne _ _ _ _ hsid]; exact hs, hso⟩
  | connectWithID sid0 url =>
    simp only [hubStep, Hub.connectWithID]
    cases hres : resolveHandler hb url with
    | error e =>
      simp only [List.append_nil]
      exact ⟨ha, hbc, hcc⟩
    | ok h2 =>
      dsimp only
      cases hl : hb.sessions.lookup sid0 with
      | none =>
        dsimp only
        split
        · -- reject, no old session: registry unchanged.
          rw [alErase_alSet, lookup_none_alErase _ _ hl]
          rename_i hacc
          refine ⟨ha, fun p hp hc =>
              List.mem_append_left _ (hbc p hp hc),
            fun sid hacc2 hncl => ?_⟩
          have hacc3 : sessionAccepted env tr sid := by
            rcases (sessionAccepted_append env tr _ sid).mp hacc2 with h1 | h1
            · exact h1
            · exfalso
              rcases h1 with ⟨h4, hm, hce⟩
              simp only [List.nil_append, List.mem_singleton] at hm
              injection hm with e1 e2
              subst e1
              rw [hacc] at hce
              exact Bool.noConfusion hce
          exact hcc sid hacc3 (not_closed_left hncl)
        · -- accept, no old session.
          refine ⟨fun p hp => ?_, fun p hp hc => ?_,
            fun sid hacc2 hncl => ?_⟩
          · rcases mem_alSet hp with rfl | h1
            · rfl
            · exact ha p h1
          · rcases mem_alSet hp with rfl | h1
            · simp [NewSession] at hc
            · exact List.mem_append_left _ (hbc p h1 hc)
          · by_cases hsid : sid = sid0
            · subst hsid
              exact ⟨NewSession sid url (some h2), alSet_lookup_self _ _ _,
                rfl⟩
            · have hacc3 : sessionAccepted env tr sid := by
                refine accepted_of_append hacc2 (fun h3 hm => ?_)
                simp only [List.nil_append] at hm
                rcases List.mem_cons.mp hm with hm1 | hm1
                · injection hm1 with e1 e2
                  exact hsid e2
                · revert hm1
                  cases hb.hasCreatedObs <;> simp
              obtain ⟨s, hs, hso⟩ := hcc sid hacc3 (not_closed_left hncl)
              exact ⟨s, by rw [alSet_lookup_ne _ _ _ _ hsid]; exact hs, hso⟩
      | some old =>
        have hido : old.id = sid0 := ha _ (lookup_mem hl)
        dsimp only
        split
        · -- reject with an old session: old closed, both removed.
          rw [alErase_alSet]
          rename_i hacc
          refine ⟨fun p hp => ha p (mem_alErase hp),
            fun p hp hc => List.mem_append_left _ (hbc p (mem_alErase hp) hc),
            fun sid hacc2 hncl => ?_⟩
          by_cases hsid : sid = sid0
          · subst hsid
            exfalso
            cases hoc : old.closed with
            | false =>
              exact hncl ((sessionClosedEvt_append tr _ sid).mpr (Or.inr
                (List.mem_append_left _
                  ((mem_sendChanClosed_close old sid).mpr ⟨hoc, hido.symm⟩))))
            | true =>
              exact (not_closed_left hncl) (hbc _ (lookup_mem hl) hoc)
          · have hacc3 : sessionAccepted env tr sid := by
              refine accepted_of_append hacc2 (fun h3 hm => ?_)
              rcases List.mem_append.mp hm with hm1 | hm1
              · exact mem_onConnect_close old h3 sid hm1
              · simp only [List.mem_singleton] at hm1
                injection hm1 with e1 e2
                exact hsid e2
            obtain ⟨s, hs, hso⟩ := hcc sid hacc3 (not_closed_left hncl)
            exact ⟨s, by rw [alErase_lookup_ne _ _ _ hsid]; exact hs, hso⟩
        · -- accept with an old session: old closed, new registered open.
          refine ⟨fun p hp => ?_, fun p hp hc => ?_,
            fun sid hacc2 hncl => ?_⟩
          · rcases mem_alSet hp with rfl | h1
            · rfl
            · exact ha p h1
          · rcases mem_alSet hp with rfl | h1
            · simp [NewSession] at hc
            · exact List.mem_append_left _ (hbc p h1 hc)
          · by_cases hsid : sid = sid0
            · subst hsid
              exact ⟨NewSession sid url (some h2), alSet_lookup_self _ _ _,
                rfl⟩
            · have hacc3 : sessionAccepted env tr sid := by
                refine accepted_of_append hacc2 (fun h3 hm => ?_)
                rcases List.mem_append.mp hm with hm1 | hm1
                · exact mem_onConnect_close old h3 sid hm1
                · rcases List.mem_cons.mp hm1 with hm2 | hm2
                  · injection hm2 with e1 e2
                    exact hsid e2
                  · revert hm2
                    cases hb.hasCreatedObs <;> simp
              obtain ⟨s, hs, hso⟩ := hcc sid hacc3 (not_closed_left hncl)
              exact ⟨s, by rw [alSet_lookup_ne _ _ _ _ hsid]; exact hs, hso⟩
  | disconnect sid0 =>
    simp only [hubStep, Hub.disconnect]
    cases hl : hb.sessions.lookup sid0 with
    | none =>
      simp only [List.append_nil]
      exact ⟨ha, hbc, hcc⟩
    | some s =>
      have hid : s.id = sid0 := ha _ (lookup_mem hl)
      dsimp only
      refine ⟨fun p hp => ha p (mem_alErase hp),
        fun p hp hc => List.mem_append_left _ (hbc p (mem_alErase hp) hc),
        fun sid hacc2 hncl => ?_⟩
      by_cases hsid : sid = sid0
      · subst hsid
        exfalso
        cases hoc : s.closed with
        | false =>
          exact hncl ((sessionClosedEvt_append tr _ sid).mpr (Or.inr
            (List.mem_append_left _
              ((mem_sendChanClosed_close s sid).mpr ⟨hoc, hid.symm⟩))))
        | true =>
          exact (not_closed_left hncl) (hbc _ (lookup_mem hl) hoc)
      · have hacc3 : sessionAccepted env tr sid := by
          refine accepted_of_append hacc2 (fun h3 hm => ?_)
          rcases List.mem_append.mp hm with hm1 | hm1
          · exact mem_onConnect_close s h3 sid hm1
          · revert hm1
            cases hb.hasDestroyedObs <;> simp
        obtain ⟨s1, hs1, hso1⟩ := hcc sid hacc3 (not_closed_left hncl)
        exact ⟨s1, by rw [alErase_lookup_ne _ _ _ hsid]; exact hs1, hso1⟩
  | closeSession sid0 =>
    simp only [hubStep]
    cases hl : hb.sessions.lookup sid0 with
    | none =>
      simp only [List.append_nil]
      exact ⟨ha, hbc, hcc⟩
    | some s =>
      have hid : s.id = sid0 := ha _ (lookup_mem hl)
      dsimp only
      refine ⟨fun p hp => ?_, fun p hp hc => ?_, fun sid hacc2 hncl => ?_⟩
      · rcases mem_alSet hp with rfl | h1
        · exact (close_fields s).1.trans hid
        · exact ha p h1
      · rcases mem_alSet hp with rfl | h1
        · cases hoc : s.closed with
          | true =>
            have hcl : Event.sendChanClosed sid0 ∈ tr :=
              hbc _ (lookup_mem hl) hoc
            exact List.mem_append_left _ hcl
          | false =>
            exact List.mem_append_right _
              ((mem_sendChanClosed_close s sid0).mpr ⟨hoc, hid.symm⟩)
        · exact List.mem_append_left _ (hbc p h1 hc)
      · by_cases hsid : sid = sid0
        · subst hsid
          exfalso
          cases hoc : s.closed with
          | false =>
            exact hncl ((sessionClosedEvt_append tr _ sid).mpr (Or.inr
              ((mem_sendChanClosed_close s sid).mpr ⟨hoc, hid.symm⟩)))
          | true =>
            exact (not_closed_left hncl) (hbc _ (lookup_mem hl) hoc)
        · have hacc3 : sessionAccepted env tr sid := by
            refine accepted_of_append hacc2 (fun h3 hm => ?_)
            exact mem_onConnect_close s h3 sid hm
          obtain ⟨s1, hs1, hso1⟩ := hcc sid hacc3 (not_closed_left hncl)
          exact ⟨s1, by rw [alSet_lookup_ne _ _ _ _ hsid]; exact hs1, hso1⟩
  | handleMessage sid0 d =>
    simp only [hubStep, Hub.handleMessage]
    cases hl : hb.sessions.lookup sid0 with
    | none =>
      simp only [List.append_nil]
      exact ⟨ha, hbc, hcc⟩
    | some s =>
      have hid : s.id = sid0 := ha _ (lookup_mem hl)
      dsimp only
      split
      · simp only [List.append_nil]
        exact ⟨ha, hbc, hcc⟩
      · simp only [List.append_nil]
        refine ⟨fun p hp => ?_, fun p hp hc => ?_,
          fun sid hacc2 hncl => ?_⟩
        · rcases mem_alSet hp with rfl | h1
          · exact (handleMessage_id env s d).trans hid
          · exact ha p h1
        · rcases mem_alSet hp with rfl | h1
          · have hcl : Event.sendChanClosed sid0 ∈ tr :=
              hbc _ (lookup_mem hl)
                ((handleMessage_fields env s d).1.symm.trans hc)
            exact hcl
          · exact hbc p h1 hc
        · by_cases hsid : sid = sid0
          · subst hsid
            obtain ⟨s1, hs1, hso1⟩ := hcc sid hacc2 hncl
            rw [hl] at hs1
            injection hs1 with e1
            subst e1
            exact ⟨(Session.handleMessage env s d).1,
              alSet_lookup_self _ _ _,
              (handleMessage_fields env s d).1.trans hso1⟩
          · obtain ⟨s1, hs1, hso1⟩ := hcc sid hacc2 hncl
            exact ⟨s1, by rw [alSet_lookup_ne _ _ _ _ hsid]; exact hs1, hso1⟩
  | send sid0 e =>
    simp only [hubStep, Hub.send]
    cases hl : hb.sessions.lookup sid0 with
    | none =>
      simp only [List.append_nil]
      exact ⟨ha, hbc, hcc⟩
    | some s =>
      have hid : s.id = sid0 := ha _ (lookup_mem hl)
      dsimp only
      split
      · simp only [List.append_nil]
        refine ⟨fun p hp => ?_, fun p hp hc => ?_,
          fun sid hacc2 hncl => ?_⟩
        · rcases mem_alSet hp with rfl | h1
          · exact (send_fields s e).1.trans hid
          · exact ha p h1
        · rcases mem_alSet hp with rfl | h1
          · have hcl : Event.sendChanClosed sid0 ∈ tr :=
              hbc _ (lookup_mem hl) ((send_fields s e).2.symm.trans hc)
            exact hcl
          · exact hbc p h1 hc
        · by_cases hsid : sid = sid0
          · subst hsid
            obtain ⟨s1, hs1, hso1⟩ := hcc sid hacc2 hncl
            rw [hl] at hs1
            injection hs1 with e1
            subst e1
            exact ⟨(Session.send s e).1, alSet_lookup_self _ _ _,
              (send_fields s e).2.trans hso1⟩
          · obtain ⟨s1, hs1, hso1⟩ := hcc sid hacc2 hncl
            exact ⟨s1, by rw [alSet_lookup_ne _ _ _ _ hsid]; exact hs1, hso1⟩
      · simp only [List.append_nil]
        exact ⟨ha, hbc, hcc⟩
  | hubClose =>
    simp only [hubStep, Hub.closeHub]
    refine ⟨fun p hp => absurd hp (by simp),
      fun p hp => absurd hp (by simp), fun sid hacc2 hncl => ?_⟩
    exfalso
    have hacc3 : sessionAccepted env tr sid := by
      refine accepted_of_append hacc2 (fun h3 hm => ?_)
      rcases List.mem_flatMap.mp hm with ⟨p, hp, hm1⟩
      rcases List.mem_append.mp hm1 with hm2 | hm2
      · exact mem_onConnect_close p.2 h3 sid hm2
      · revert hm2
        cases hb.hasDestroyedObs <;> simp
    obtain ⟨s, hs, hso⟩ := hcc sid hacc3 (not_closed_left hncl)
    have hmem : (sid, s) ∈ hb.sessions := lookup_mem hs
    have hid : s.id = sid := ha _ hmem
    refine hncl ((sessionClosedEvt_append tr _ sid).mpr (Or.inr
      (List.mem_flatMap.mpr ⟨(sid, s), hmem, List.mem_append_left _
        ((mem_sendChanClosed_close s sid).mpr ⟨hso, hid.symm⟩)⟩)))

/-- `HubInv` holds along any run whose generated ids are fresh. -/
theorem hubRun_inv (env : Nat → HandlerBeh) (ops : List HubOp) :
    ∀ (hb : Hub) (tr : List Event), HubInv env hb tr →
      hubRunFresh env hb ops = true →
      HubInv env (hubRun env hb ops).1 (tr ++ (hubRun env hb ops).2) := by
  induction ops with
  | nil =>
    intro hb tr h _
    simp only [hubRun, List.append_nil]
    exact h
  | cons op ops ih =>
    intro hb tr h hf
    simp only [hubRunFresh, Bool.and_eq_true] at hf
    have h1 := hubStep_inv env hb op tr h hf.1
    have h2 := ih (hubStep env hb op).1 (tr ++ (hubStep env hb op).2) h1 hf.2
    simp only [hubRun]
    rw [List.append_assoc] at h2
    exact h2

/-- The invariant holds of the fresh hub with the empty trace. -/
theorem hubInv_new (env : Nat → HandlerBeh) : HubInv env Hub.new [] := by
  refine ⟨?_, ?_, ?_⟩
  · intro p hp
    simp [Hub.new] at hp
  · intro p hp
    simp [Hub.new] at hp
  · intro sid hacc _
    rcases hacc with ⟨h2, hm, _⟩
    simp at hm

/-- C4 amended: in every state reachable by hub, channel, and session
operations from a fresh hub, the registry invariant holds in both
directions except the one the counterexample refutes.  Only if: every
session present in the registry was accepted by its handler's `OnConnect`.
If: provided every `Connect`-generated session id is fresh (the spec's
uniqueness guarantee for `generateSessionID`; a colliding id would silently
overwrite a registration), every session id that was accepted and whose
send queue was never closed is still registered, and still open.  The
"present implies not yet closed" half of the original claim fails, because
`Session.Close` and `InProcessChannel.Close` leave the closed session in
the registry until `Disconnect`, `Hub.Close`, or reconnection replacement
removes it. -/
theorem hub_registry_accepted_iff (env : Nat → HandlerBeh)
    (ops : List HubOp) :
    (∀ (sid : String) (s : Session),
       (hubRun env Hub.new ops).1.sessions.lookup sid = some s →
       ∃ h, s.handler = some h ∧ (env h).connectError = false) ∧
    (hubRunFresh env Hub.new ops = true →
     ∀ sid : String,
       sessionAccepted env (hubRun env Hub.new ops).2 sid →
       ¬ sessionClosedEvt (hubRun env Hub.new ops).2 sid →
       ∃ s, (hubRun env Hub.new ops).1.sessions.lookup sid = some s ∧
         s.closed = false) := by
  constructor
  · intro sid s hl
    have hall : allAccepted env (hubRun env Hub.new ops).1 = true :=
      hubRun_accepted env ops Hub.new rfl
    have hs : sessionOK env s = true :=
      List.all_eq_true.mp hall _ (lookup_mem hl)
    unfold sessionOK at hs
    cases hh : s.handler with
    | none =>
      rw [hh] at hs
      simp at hs
    | some h2 =>
      rw [hh] at hs
      simp only [Bool.not_eq_true'] at hs
      exact ⟨h2, rfl, hs⟩
  · intro hfr sid hacc hncl
    have hinv := hubRun_inv env ops Hub.new [] (hubInv_new env) hfr
    rw [List.nil_append] at hinv
    exact hinv.2.2 sid hacc hncl

/-- C4 witness: after a concrete fresh run that registers `s1`, part one
gives the accepting handler of the registered session, and part two shows
the accepted, never-closed `s1` still registered and open. -/
theorem hub_registry_accepted_iff_witness :
    (∃ h, (NewSession "s1" "/ws/x" (some 0)).handler = some h ∧
       (env0 h).connectError = false) ∧
    (∃ s, (hubRun env0 Hub.new
        [HubOp.handle "/ws/" 0,
         HubOp.connectWithID "s1" "/ws/x"]).1.sessions.lookup "s1" =
        some s ∧ s.closed = false) :=
  ⟨(hub_registry_accepted_iff env0
      [HubOp.handle "/ws/" 0, HubOp.connectWithID "s1" "/ws/x"]).1 "s1"
      (NewSession "s1" "/ws/x" (some 0)) rfl,
   (hub_registry_accepted_iff env0
      [HubOp.handle "/ws/" 0, HubOp.connectWithID "s1" "/ws/x"]).2 rfl "s1"
      ⟨0, by decide, rfl⟩
      (by unfold sessionClosedEvt; decide)⟩
